import Mathlib

/-!
# A Go health-check service: handlers, route table and dispatch

Shallow embedding of `src/main.go` (the conventional entry point), `src/app/main.go`
(the entry point that registers `./health`) and of the parts of Go's `net/http`,
`path` and `encoding/json` these two programs run through.

Conventions.
* A Go `string` / `[]byte` is a `GoString`: the list of its code points. All strings that
  occur are valid UTF-8, so equality of byte sequences and of code-point lists coincide.
* A `http.ResponseWriter` is a record that is passed through every call that writes to it.
* A handler runs inside the process: it is given the process state (route table, standard
  output) next to its writer and request, and returns the state it leaves.
* The clock is an input: a request is served at a reading of the clock, which the
  transport puts into the `Date` header.
* The library parts are transcribed from the Go standard library: `ServeMux` in its
  map-plus-sorted-slice form (`Handle`, `appendSorted`, `match`, `handler`,
  `shouldRedirectRLocked`, `Handler`, `ServeHTTP`), `cleanPath`, `stripHostPort`,
  `net.SplitHostPort`, `path.Clean`, `http.Error`, `http.NotFound`. Two parts are partial
  and say so where they are defined: `Redirect` (no percent-escaping of the target) and
  `Unmarshal` (objects of string-valued members only).
* Of what the transport adds to a response by itself, `Date` and the missing body of a
  HEAD response are modelled; `Content-Length`, the sniffed `Content-Type` of a response
  without one, and connection management are not.
-/

namespace GoHealth

/-- Go strings and byte slices, as lists of code points. -/
abbrev GoString := List Char

/-! ## `http.Header` -/

/-- Model of `http.Header`: keys with their value lists. -/
abbrev Header := List (GoString × List GoString)

/-- Model of the presence test `_, ok := h[key]`. -/
def Header.has (h : Header) (key : GoString) : Bool :=
  (h.lookup key).isSome

/-- Model of `h[key]`: the values stored under a key, empty when absent. -/
def Header.values (h : Header) (key : GoString) : List GoString :=
  (h.lookup key).getD []

/-- Model of `Header.Get`: the first value stored under a key, empty when absent. -/
def Header.Get (h : Header) (key : GoString) : GoString :=
  (Header.values h key).headD []

/-- Model of `Header.Del`. -/
def Header.Del (h : Header) (key : GoString) : Header :=
  h.filter (fun kv => kv.1 != key)

/-- Model of `Header.Set`: the key now maps to the single value. The keys used by the
programs (`Content-Type`, `Location`, ...) are already in canonical MIME form. -/
def Header.Set (h : Header) (key value : GoString) : Header :=
  (key, [value]) :: Header.Del h key

/-! ## `http.ResponseWriter` -/

/-- State of a response as seen through `http.ResponseWriter`.
`handlerHeader` is the map returned by `Header()`; at the first `WriteHeader` it is
snapshotted into `sentHeader`, which is what the client receives; `status` is the status
line; `body` the bytes written so far. -/
structure ResponseWriter where
  handlerHeader : Header
  wroteHeader : Bool
  status : Nat
  sentHeader : Header
  body : GoString
deriving DecidableEq, Repr

/-- A fresh writer, as `httptest.NewRecorder()` or the server hands to a handler:
nothing written, status defaulting to 200. -/
def ResponseWriter.fresh : ResponseWriter :=
  { handlerHeader := [], wroteHeader := false, status := 200, sentHeader := [], body := [] }

/-- Model of `w.Header().Set(key, value)`. -/
def ResponseWriter.setHeader (w : ResponseWriter) (key value : GoString) : ResponseWriter :=
  { w with handlerHeader := Header.Set w.handlerHeader key value }

/-- Model of `w.Header().Del(key)`. -/
def ResponseWriter.delHeader (w : ResponseWriter) (key : GoString) : ResponseWriter :=
  { w with handlerHeader := Header.Del w.handlerHeader key }

/-- Model of `w.WriteHeader(code)`: only the first call counts; it fixes the status and
the headers that are sent. -/
def ResponseWriter.WriteHeader (w : ResponseWriter) (code : Nat) : ResponseWriter :=
  if w.wroteHeader then w
  else { w with wroteHeader := true, status := code, sentHeader := w.handlerHeader }

/-- Model of `w.Write(b)`: an implicit `WriteHeader(200)` when no header was written yet,
then the bytes are appended to the body. -/
def ResponseWriter.Write (w : ResponseWriter) (b : GoString) : ResponseWriter :=
  let w1 := w.WriteHeader 200
  { w1 with body := w1.body ++ b }

/-- Model of `fmt.Fprintln(w, s)`: one `Write` of the operand followed by a newline. -/
def Fprintln (w : ResponseWriter) (s : GoString) : ResponseWriter :=
  w.Write (s ++ ['\n'])

/-! ## `http.Request` -/

/-- The fields of `url.URL` that routing reads. -/
structure URL where
  Host : GoString
  Path : GoString
  RawQuery : GoString
deriving DecidableEq, Repr

/-- The fields of `http.Request` that the server, the multiplexer and the library
handlers read. -/
structure Request where
  Method : GoString
  URL : URL
  ProtoMajor : Nat
  ProtoMinor : Nat
  Header : Header
  Body : GoString
  Host : GoString
  RequestURI : GoString
deriving DecidableEq, Repr

/-- Model of `Request.ProtoAtLeast`. -/
def Request.ProtoAtLeast (r : Request) (major minor : Nat) : Bool :=
  r.ProtoMajor > major || (r.ProtoMajor == major && r.ProtoMinor >= minor)

/-- Requests as the server reads them off a connection: the request target `*` is parsed
(`url.ParseRequestURI`) into the path `*`, so a request whose path is anything else has a
request target other than `*`. -/
def Request.fromWire (r : Request) : Prop :=
  r.RequestURI = "*".toList → r.URL.Path = "*".toList

instance (r : Request) : Decidable r.fromWire := by
  unfold Request.fromWire; infer_instance

/-- Model of `httptest.NewRequest(method, target, nil)` for an origin-form target without
a query: HTTP/1.1, host `example.com`, empty header and body. -/
def NewRequest (method target : GoString) : Request :=
  { Method := method, URL := { Host := [], Path := target, RawQuery := [] },
    ProtoMajor := 1, ProtoMinor := 1, Header := [], Body := [],
    Host := "example.com".toList, RequestURI := target }

/-! ## `encoding/json` for `HealthResponse` -/

/-- The record `type HealthResponse struct { Status string }` tagged `json:"status"`. -/
structure HealthResponse where
  Status : GoString
deriving DecidableEq, Repr

/-- Lower-case hexadecimal digit, `hex[n]` in `encoding/json`. -/
def hexDigit (n : Nat) : Char :=
  ("0123456789abcdef".toList).getD n '0'

/-- How `encoding/json` writes one code point inside a string literal (HTML escaping on,
the encoder's default). -/
def jsonEscapeChar (c : Char) : GoString :=
  if c = '\\' then ['\\', '\\']
  else if c = Char.ofNat 34 then ['\\', Char.ofNat 34]
  else if c = Char.ofNat 8 then ['\\', 'b']
  else if c = Char.ofNat 12 then ['\\', 'f']
  else if c = '\n' then ['\\', 'n']
  else if c = '\r' then ['\\', 'r']
  else if c = '\t' then ['\\', 't']
  else if c.toNat < 32 ∨ c = '<' ∨ c = '>' ∨ c = '&' then
    ['\\', 'u', '0', '0', hexDigit (c.toNat / 16), hexDigit (c.toNat % 16)]
  else if c.toNat = 0x2028 ∨ c.toNat = 0x2029 then
    ['\\', 'u', '2', '0', '2', hexDigit (c.toNat % 16)]
  else [c]

/-- A JSON string literal: quote, escaped content, quote. -/
def jsonString (s : GoString) : GoString :=
  [Char.ofNat 34] ++ s.flatMap jsonEscapeChar ++ [Char.ofNat 34]

/-- Model of `json.Marshal(HealthResponse{...})`: one member, its key the struct tag
`status`, no insignificant whitespace. -/
def Marshal (v : HealthResponse) : GoString :=
  ['{'] ++ jsonString "status".toList ++ [':'] ++ jsonString v.Status ++ ['}']

/-- Model of `json.NewEncoder(w).Encode(v)`: the marshalled value and a newline, in one
`Write`. -/
def Encode (w : ResponseWriter) (v : HealthResponse) : ResponseWriter :=
  w.Write (Marshal v ++ ['\n'])

/-- JSON insignificant whitespace is skipped. -/
def skipSpace : GoString → GoString
  | [] => []
  | c :: cs => if c = ' ' ∨ c = '\t' ∨ c = '\n' ∨ c = '\r' then skipSpace cs else c :: cs

/-- Value of a hexadecimal digit. -/
def hexVal (c : Char) : Option Nat :=
  let n := c.toNat
  if 48 ≤ n ∧ n ≤ 57 then some (n - 48)
  else if 97 ≤ n ∧ n ≤ 102 then some (n - 87)
  else if 65 ≤ n ∧ n ≤ 70 then some (n - 55)
  else none

/-- The character a one-letter escape stands for. -/
def unescapeChar (e : Char) : Option Char :=
  if e = Char.ofNat 34 ∨ e = '\\' ∨ e = '/' then some e
  else if e = 'b' then some (Char.ofNat 8)
  else if e = 'f' then some (Char.ofNat 12)
  else if e = 'n' then some '\n'
  else if e = 'r' then some '\r'
  else if e = 't' then some '\t'
  else none

/-- Reads a JSON string literal after its opening quote: the decoded content and the input
behind the closing quote. Escapes `\uXXXX` are decoded outside the surrogate range; a
surrogate escape, an unknown escape, a raw control character or a missing closing quote
gives `none`. -/
def scanString : GoString → Option (GoString × GoString)
  | [] => none
  | c :: cs =>
    if c = Char.ofNat 34 then some ([], cs)
    else if c = '\\' then
      match cs with
      | [] => none
      | e :: rest =>
        if e = 'u' then
          match rest with
          | h1 :: h2 :: h3 :: h4 :: rest4 =>
            match hexVal h1, hexVal h2, hexVal h3, hexVal h4 with
            | some a, some b, some c4, some d =>
              let n := ((a * 16 + b) * 16 + c4) * 16 + d
              if 0xD800 ≤ n ∧ n ≤ 0xDFFF then none
              else (scanString rest4).map fun p => (Char.ofNat n :: p.1, p.2)
            | _, _, _, _ => none
          | _ => none
        else
          match unescapeChar e with
          | some ch => (scanString rest).map fun p => (ch :: p.1, p.2)
          | none => none
    else if c.toNat < 32 then none
    else (scanString cs).map fun p => (c :: p.1, p.2)

/-- ASCII lower case. -/
def lowerASCII (c : Char) : Char :=
  if 65 ≤ c.toNat ∧ c.toNat ≤ 90 then Char.ofNat (c.toNat + 32) else c

/-- Reads the members of a JSON object into a `HealthResponse`, the input standing at the
first key: a member whose key is `status` (in any ASCII letter case) sets the field, other
members are ignored, and the result comes with the input behind the closing brace. Only
string-valued members with ASCII keys are read; anything else gives `none`. -/
def scanMembers : Nat → GoString → HealthResponse → Option (HealthResponse × GoString)
  | 0, _, _ => none
  | fuel + 1, s, acc =>
    match skipSpace s with
    | [] => none
    | q :: s1 =>
      if q ≠ Char.ofNat 34 then none
      else
        match scanString s1 with
        | none => none
        | some (key, s2) =>
          if key.any (fun c => decide (128 ≤ c.toNat)) then none
          else
            match skipSpace s2 with
            | [] => none
            | colon :: s3 =>
              if colon ≠ ':' then none
              else
                match skipSpace s3 with
                | [] => none
                | q2 :: s4 =>
                  if q2 ≠ Char.ofNat 34 then none
                  else
                    match scanString s4 with
                    | none => none
                    | some (val, s5) =>
                      let acc1 : HealthResponse :=
                        if key.map lowerASCII = "status".toList then { Status := val } else acc
                      match skipSpace s5 with
                      | [] => none
                      | sep :: s6 =>
                        if sep = ',' then scanMembers fuel s6 acc1
                        else if sep = '}' then some (acc1, s6)
                        else none

/-- Model of `json.Unmarshal(data, &v)` for `v` a zero `HealthResponse`, on the fragment of
JSON that `scanMembers` reads (an object of string-valued members, surrounded by optional
whitespace). `none` for input outside the fragment and for input that is not JSON. -/
def Unmarshal (data : GoString) : Option HealthResponse :=
  match skipSpace data with
  | [] => none
  | b :: s =>
    if b ≠ '{' then none
    else
      match skipSpace s with
      | [] => none
      | c :: s1 =>
        if c = '}' then
          if skipSpace s1 = [] then some { Status := [] } else none
        else
          match scanMembers data.length (c :: s1) { Status := [] } with
          | some (v, rest) => if skipSpace rest = [] then some v else none
          | none => none

/-! ## `path.Clean` and `cleanPath` -/

/-- The inner loop of the `..` case of `path.Clean`,
`for out.w > dotdot && out.index(out.w) != '/' { out.w-- }`, started at write index `w`:
the index it stops at. -/
def backtrack (buf : GoString) (dotdot : Nat) : Nat → Nat
  | 0 => 0
  | w + 1 =>
    if w + 1 > dotdot ∧ buf.getD (w + 1) '/' ≠ '/' then backtrack buf dotdot w else w + 1

/-- The `..` case of `path.Clean`: drop the last element of the output when there is one
after index `dotdot`; otherwise, on a path that is not rooted, append a `..` element and
move `dotdot` behind it. Returns the output and the new `dotdot`. -/
def dotdotStep (rooted : Bool) (out : GoString) (dotdot : Nat) : GoString × Nat :=
  if out.length > dotdot then
    (out.take (backtrack out dotdot (out.length - 1)), dotdot)
  else if !rooted then
    let out1 := (if out.length > 0 then out ++ ['/'] else out) ++ ['.', '.']
    (out1, out1.length)
  else (out, dotdot)

/-- The start of a real path element in `path.Clean`: a separating slash when the output
already holds an element, then the element's first byte. -/
def startElem (rooted : Bool) (out : GoString) (c : Char) : GoString :=
  (if (rooted && out.length != 1) || (!rooted && out.length != 0) then out ++ ['/'] else out)
    ++ [c]

/-- The main loop of `path.Clean` over the unread input. `inElem` is true while the loop
that copies a real path element is running; otherwise the input is at the start of an
element and the four cases of the `switch` apply. -/
def cleanLoop (rooted : Bool) : Bool → GoString → GoString → Nat → GoString
  | _, [], out, _ => out
  | true, c :: cs, out, dotdot =>
    if c = '/' then cleanLoop rooted false cs out dotdot
    else cleanLoop rooted true cs (out ++ [c]) dotdot
  | false, c :: cs, out, dotdot =>
    if c = '/' then cleanLoop rooted false cs out dotdot
    else if c = '.' ∧ (cs = [] ∨ cs.head? = some '/') then cleanLoop rooted false cs out dotdot
    else
      match cs with
      | [] => cleanLoop rooted true [] (startElem rooted out c) dotdot
      | d :: ds =>
        if c = '.' ∧ d = '.' ∧ (ds = [] ∨ ds.head? = some '/') then
          cleanLoop rooted false ds (dotdotStep rooted out dotdot).1 (dotdotStep rooted out dotdot).2
        else cleanLoop rooted true (d :: ds) (startElem rooted out c) dotdot

/-- Model of `path.Clean`. -/
def Clean (path : GoString) : GoString :=
  if path = [] then ['.']
  else
    let rooted : Bool := path.head? = some '/'
    let out :=
      if rooted then cleanLoop true false path.tail ['/'] 1
      else cleanLoop false false path [] 0
    if out = [] then ['.'] else out

/-- Model of `cleanPath` of `net/http`: the canonical form of a request path, rooted, with
`.` and `..` elements and repeated slashes removed and a trailing slash kept. -/
def cleanPath (p : GoString) : GoString :=
  if p = [] then ['/']
  else
    let p := if p.head? ≠ some '/' then '/' :: p else p
    let np := Clean p
    if p.getLast? = some '/' ∧ np ≠ ['/'] then
      if p.length = np.length + 1 ∧ np.isPrefixOf p then p else np ++ ['/']
    else np

/-! ## `net.SplitHostPort` and `stripHostPort` -/

/-- Index of the first occurrence of a byte, as `strings.IndexByte`. -/
def indexByte (s : GoString) (c : Char) : Option Nat :=
  let i := s.indexOf c
  if i < s.length then some i else none

/-- Index of the last occurrence of a byte, as `strings.LastIndexByte`. -/
def lastIndexByte (s : GoString) (c : Char) : Option Nat :=
  match indexByte s.reverse c with
  | some i => some (s.length - 1 - i)
  | none => none

/-- Model of `net.SplitHostPort`: host and port, or `none` where the Go function returns an
error. -/
def SplitHostPort (hostport : GoString) : Option (GoString × GoString) :=
  match lastIndexByte hostport ':' with
  | none => none
  | some i =>
    if hostport.head? = some '[' then
      match indexByte hostport ']' with
      | none => none
      | some e =>
        if e + 1 = i then
          if (indexByte (hostport.drop 1) '[').isSome then none
          else if (indexByte (hostport.drop (e + 1)) ']').isSome then none
          else some ((hostport.take e).drop 1, hostport.drop (i + 1))
        else none
    else
      let host := hostport.take i
      if (indexByte host ':').isSome then none
      else if (indexByte hostport '[').isSome then none
      else if (indexByte hostport ']').isSome then none
      else some (host, hostport.drop (i + 1))

/-- Model of `stripHostPort`: the host without its port; unchanged when there is no colon
or the value does not split. -/
def stripHostPort (h : GoString) : GoString :=
  if !h.contains ':' then h
  else
    match SplitHostPort h with
    | some (host, _) => host
    | none => h

/-! ## Library handlers: `http.Error`, `http.NotFound`, `http.Redirect` -/

/-- Model of `http.Error`. -/
def Error (w : ResponseWriter) (error : GoString) (code : Nat) : ResponseWriter :=
  let w := w.delHeader "Content-Length".toList
  let w := w.setHeader "Content-Type".toList "text/plain; charset=utf-8".toList
  let w := w.setHeader "X-Content-Type-Options".toList "nosniff".toList
  let w := w.WriteHeader code
  Fprintln w error

/-- Model of `http.NotFound`. -/
def NotFound (w : ResponseWriter) (_r : Request) : ResponseWriter :=
  Error w "404 page not found".toList 404

/-- Model of `htmlEscape` of `net/http`. -/
def htmlEscape (s : GoString) : GoString :=
  s.flatMap fun c =>
    if c = '&' then "&amp;".toList
    else if c = '<' then "&lt;".toList
    else if c = '>' then "&gt;".toList
    else if c = Char.ofNat 34 then "&#34;".toList
    else if c = Char.ofNat 39 then "&#39;".toList
    else [c]

/-- Model of `http.StatusText`: the reason phrase of a status code, empty for a code the
library does not know. -/
def StatusText (code : Nat) : GoString :=
  (([(100, "Continue"), (101, "Switching Protocols"), (102, "Processing"),
    (103, "Early Hints"), (200, "OK"), (201, "Created"), (202, "Accepted"),
    (203, "Non-Authoritative Information"), (204, "No Content"), (205, "Reset Content"),
    (206, "Partial Content"), (207, "Multi-Status"), (208, "Already Reported"),
    (226, "IM Used"), (300, "Multiple Choices"), (301, "Moved Permanently"), (302, "Found"),
    (303, "See Other"), (304, "Not Modified"), (305, "Use Proxy"),
    (307, "Temporary Redirect"), (308, "Permanent Redirect"), (400, "Bad Request"),
    (401, "Unauthorized"), (402, "Payment Required"), (403, "Forbidden"), (404, "Not Found"),
    (405, "Method Not Allowed"), (406, "Not Acceptable"),
    (407, "Proxy Authentication Required"), (408, "Request Timeout"), (409, "Conflict"),
    (410, "Gone"), (411, "Length Required"), (412, "Precondition Failed"),
    (413, "Request Entity Too Large"), (414, "Request URI Too Long"),
    (415, "Unsupported Media Type"), (416, "Requested Range Not Satisfiable"),
    (417, "Expectation Failed"), (418, "I\x27m a teapot"), (421, "Misdirected Request"),
    (422, "Unprocessable Entity"), (423, "Locked"), (424, "Failed Dependency"),
    (425, "Too Early"), (426, "Upgrade Required"), (428, "Precondition Required"),
    (429, "Too Many Requests"), (431, "Request Header Fields Too Large"),
    (451, "Unavailable For Legal Reasons"), (500, "Internal Server Error"),
    (501, "Not Implemented"), (502, "Bad Gateway"), (503, "Service Unavailable"),
    (504, "Gateway Timeout"), (505, "HTTP Version Not Supported"),
    (506, "Variant Also Negotiates"), (507, "Insufficient Storage"), (508, "Loop Detected"),
    (510, "Not Extended"), (511, "Network Authentication Required")] :
      List (Nat × String)).lookup code).elim [] String.toList

/-- Model of `http.Redirect` as the multiplexer uses it, for a target that is a cleaned
rooted path with an optional query: the `Location` header, a `Content-Type` for GET and
HEAD when none was set, the status, and the short HTML body for GET. The target is taken
as given: percent-escaping of the path is not applied. -/
def Redirect (w : ResponseWriter) (r : Request) (url : GoString) (code : Nat) :
    ResponseWriter :=
  let hadCT := Header.has w.handlerHeader "Content-Type".toList
  let w := w.setHeader "Location".toList url
  let w :=
    if !hadCT && (r.Method = "GET".toList || r.Method = "HEAD".toList) then
      w.setHeader "Content-Type".toList "text/html; charset=utf-8".toList
    else w
  let w := w.WriteHeader code
  if !hadCT && r.Method = "GET".toList then
    Fprintln w ("<a href=\"".toList ++ htmlEscape url ++ "\">".toList
      ++ StatusText code ++ "</a>.\n".toList)
  else w

/-- The target of the multiplexer's redirects, `(&url.URL{Path: path, RawQuery: q}).String()`. -/
def redirectTarget (path rawQuery : GoString) : GoString :=
  if rawQuery = [] then path else path ++ ['?'] ++ rawQuery

/-! ## `http.ServeMux` -/

/-- Model of `muxEntry`: a handler and the pattern it was registered under. -/
structure muxEntry (H : Type) where
  h : H
  pattern : GoString
deriving DecidableEq, Repr

/-- Model of `ServeMux`: the map from patterns to entries, the entries whose pattern ends
in a slash sorted from longest to shortest, and whether any pattern names a host. -/
structure ServeMux (H : Type) where
  m : List (GoString × muxEntry H)
  es : List (muxEntry H)
  hosts : Bool
deriving DecidableEq, Repr

/-- What `ServeMux.Handler` returns as the handler: one that was registered, or one of the
library's `NotFoundHandler()` and `RedirectHandler(url, code)`. -/
inductive Handler (H : Type) where
  | registered (h : H)
  | NotFoundHandler
  | RedirectHandler (url : GoString) (code : Nat)
deriving DecidableEq, Repr

/-- The zero `ServeMux`, as `DefaultServeMux` before any registration. -/
def ServeMux.empty {H : Type} : ServeMux H :=
  { m := [], es := [], hosts := false }

/-- Model of `appendSorted`: the entry goes before the first entry with a shorter
pattern. -/
def appendSorted {H : Type} (es : List (muxEntry H)) (e : muxEntry H) : List (muxEntry H) :=
  match es with
  | [] => [e]
  | x :: xs =>
    if x.pattern.length < e.pattern.length then e :: x :: xs else x :: appendSorted xs e

/-- Model of `ServeMux.Handle` (which `http.HandleFunc` calls on `DefaultServeMux`).
`none` stands for the panics: empty pattern, pattern registered twice. -/
def ServeMux.Handle {H : Type} (mux : ServeMux H) (pattern : GoString) (handler : H) :
    Option (ServeMux H) :=
  if pattern = [] then none
  else if (mux.m.lookup pattern).isSome then none
  else
    let e : muxEntry H := { h := handler, pattern := pattern }
    some
      { m := (pattern, e) :: mux.m,
        es := if pattern.getLast? = some '/' then appendSorted mux.es e else mux.es,
        hosts := if pattern.head? ≠ some '/' then true else mux.hosts }

/-- Model of `ServeMux.match`: an exact match in the map first, otherwise the longest
registered pattern ending in a slash that is a prefix of the path. -/
def ServeMux.match' {H : Type} (mux : ServeMux H) (path : GoString) : Option (muxEntry H) :=
  match mux.m.lookup path with
  | some v => some v
  | none => mux.es.find? (fun e => e.pattern.isPrefixOf path)

/-- Model of `ServeMux.handler`: host-specific patterns take precedence over generic ones;
without a match the handler is `NotFoundHandler()` with an empty pattern. -/
def ServeMux.handler {H : Type} (mux : ServeMux H) (host path : GoString) :
    Handler H × GoString :=
  let byHost := if mux.hosts then mux.match' (host ++ path) else none
  match byHost with
  | some e => (Handler.registered e.h, e.pattern)
  | none =>
    match mux.match' path with
    | some e => (Handler.registered e.h, e.pattern)
    | none => (Handler.NotFoundHandler, [])

/-- Model of `ServeMux.shouldRedirectRLocked`: whether `path` is not registered, with or
without the host, while `path + "/"` is. -/
def ServeMux.shouldRedirectRLocked {H : Type} (mux : ServeMux H) (host path : GoString) :
    Bool :=
  let p := [path, host ++ path]
  if p.any (fun c => (mux.m.lookup c).isSome) then false
  else if path.length = 0 then false
  else if p.any (fun c => (mux.m.lookup (c ++ ['/'])).isSome) then
    path.getLast? ≠ some '/'
  else false

/-- Model of `ServeMux.Handler`: the handler for a request and the pattern that matched.
CONNECT requests are matched on host and path as they are; for all other requests the port
is stripped from the host and the path is cleaned, and a request whose path is not in
canonical form is redirected to the canonical path. -/
def ServeMux.Handler {H : Type} (mux : ServeMux H) (r : Request) : Handler H × GoString :=
  if r.Method = "CONNECT".toList then
    if mux.shouldRedirectRLocked r.URL.Host r.URL.Path then
      (Handler.RedirectHandler (redirectTarget (r.URL.Path ++ ['/']) r.URL.RawQuery) 301,
        r.URL.Path ++ ['/'])
    else mux.handler r.Host r.URL.Path
  else
    let host := stripHostPort r.Host
    let path := cleanPath r.URL.Path
    if mux.shouldRedirectRLocked host path then
      (Handler.RedirectHandler (redirectTarget (path ++ ['/']) r.URL.RawQuery) 301,
        path ++ ['/'])
    else if path ≠ r.URL.Path then
      (Handler.RedirectHandler (redirectTarget path r.URL.RawQuery) 301,
        (mux.handler host path).2)
    else mux.handler host r.URL.Path

/-! ## The process and the server -/

/-- The state of the process that outlives a request, as far as the programs and the
library parts they use can read or change it: the route table `http.DefaultServeMux` and
what has been written to standard output. The programs declare no package-level variable
of their own. -/
structure Process (H : Type) where
  mux : ServeMux H
  stdout : GoString
deriving DecidableEq, Repr

/-- The process before `main` runs: nothing registered, nothing printed. -/
def Process.initial {H : Type} : Process H :=
  { mux := ServeMux.empty, stdout := [] }

/-- Model of `fmt.Println(s)`: the operand and a newline go to standard output. -/
def Println {H : Type} (p : Process H) (s : GoString) : Process H :=
  { p with stdout := p.stdout ++ s ++ ['\n'] }

/-- What a handler does when it is called: it runs in the process, so it gets the process
state along with its writer and request and returns both the state and the writer it
leaves. -/
abbrev HandlerFunc (H : Type) :=
  Process H → ResponseWriter → Request → Process H × ResponseWriter

/-- Running the handler that `ServeMux.Handler` selected; `run` says what each registered
handler does. The library's own handlers write to their writer only. -/
def Handler.ServeHTTP {H : Type} (run : H → HandlerFunc H) (h : Handler H) :
    HandlerFunc H :=
  fun p w r =>
    match h with
    | Handler.registered f => run f p w r
    | Handler.NotFoundHandler => (p, NotFound w r)
    | Handler.RedirectHandler url code => (p, Redirect w r url code)

/-- Model of `ServeMux.ServeHTTP`: the request target `*` is answered with 400, every
other request by the handler that `Handler` selects. -/
def ServeMux.ServeHTTP {H : Type} (run : H → HandlerFunc H) (mux : ServeMux H) :
    HandlerFunc H :=
  fun p w r =>
    if r.RequestURI = "*".toList then
      let w := if r.ProtoAtLeast 1 1 then w.setHeader "Connection".toList "close".toList else w
      (p, w.WriteHeader 400)
    else (mux.Handler r).1.ServeHTTP run p w r

/-- Model of `globalOptionsHandler.ServeHTTP`, the server's answer to `OPTIONS *`. -/
def globalOptionsHandler (w : ResponseWriter) (_r : Request) : ResponseWriter :=
  w.setHeader "Content-Length".toList "0".toList

/-- Model of `serverHandler.ServeHTTP` for a server whose `Handler` is nil, as
`http.ListenAndServe(":8080", nil)` starts it: `OPTIONS *` goes to the library's own
handler, everything else to `DefaultServeMux`, the route table of the process at the
time of the request. -/
def serverHandler {H : Type} (run : H → HandlerFunc H) : HandlerFunc H :=
  fun p w r =>
    if r.RequestURI = "*".toList ∧ r.Method = "OPTIONS".toList then
      (p, globalOptionsHandler w r)
    else p.mux.ServeHTTP run p w r

/-- The end of a request in the server (`finishRequest`): a handler that returned without
writing gets the implicit `WriteHeader(200)`. -/
def ResponseWriter.finish (w : ResponseWriter) : ResponseWriter :=
  w.WriteHeader 200

/-- Model of `bodyAllowedForStatus`. -/
def bodyAllowedForStatus (status : Nat) : Bool :=
  !((100 ≤ status && status ≤ 199) || status == 204 || status == 304)

/-- What of the writer's content the server puts on the wire: the bytes a handler writes
in answer to a HEAD request, or under a status that allows no body, are discarded. -/
def ResponseWriter.onWire (w : ResponseWriter) (r : Request) : ResponseWriter :=
  if r.Method = "HEAD".toList ∨ bodyAllowedForStatus w.status = false then
    { w with body := [] }
  else w

/-- One request in the server: the server's handler runs on a fresh writer in the process,
the request is finished, and the body is cut to what goes on the wire. Returns the process
state after the request and the writer. -/
def exchange {H : Type} (run : H → HandlerFunc H) (p : Process H) (r : Request) :
    Process H × ResponseWriter :=
  let pw := serverHandler run p ResponseWriter.fresh r
  (pw.1, (pw.2.finish).onWire r)

/-- The answer of the server to one request: status, the headers the handler sent and the
body on the wire. The headers that the transport adds by itself are not in it:
`Content-Length`, a sniffed `Content-Type` and connection management are left out, `Date`
is added by `Process.serve`. -/
def respond {H : Type} (run : H → HandlerFunc H) (p : Process H) (r : Request) :
    ResponseWriter :=
  (exchange run p r).2

/-- A response as the client receives it. -/
structure Response where
  status : Nat
  header : Header
  body : GoString
deriving DecidableEq, Repr

/-- The response the transport sends for a finished writer. `now` is the reading of the
clock when the header is written, in the HTTP date format
(`time.Now().UTC().Format(http.TimeFormat)`); it becomes the `Date` header unless the
handler set one. -/
def Response.send (now : GoString) (w : ResponseWriter) : Response :=
  { status := w.status,
    header :=
      if Header.has w.sentHeader "Date".toList then w.sentHeader
      else Header.Set w.sentHeader "Date".toList now,
    body := w.body }

/-- Serving one request that arrives when the clock reads `now`: the process state after
it and the response. -/
def Process.serve {H : Type} (run : H → HandlerFunc H) (p : Process H) (now : GoString)
    (r : Request) : Process H × Response :=
  let pw := exchange run p r
  (pw.1, Response.send now pw.2)

/-- Serving a sequence of requests one after the other, each with the clock reading at
which it is answered: the final process state and the responses in order. -/
def Process.serveAll {H : Type} (run : H → HandlerFunc H) (p : Process H) :
    List (GoString × Request) → Process H × List Response
  | [] => (p, [])
  | tr :: rest =>
    let p1 := (p.serve run tr.1 tr.2).1
    let out := Process.serveAll run p1 rest
    (out.1, (p.serve run tr.1 tr.2).2 :: out.2)

end GoHealth

/-! ## The handlers of `src/main.go` -/

namespace Main

open GoHealth

/-- `healthHandler` of `src/main.go`. -/
def healthHandler (w : ResponseWriter) (_r : Request) : ResponseWriter :=
  let w := w.setHeader "Content-Type".toList "application/json".toList
  Encode w { Status := "OK".toList }

/-- The closure registered under `/` in `main` of `src/main.go`. -/
def rootHandler (w : ResponseWriter) (_r : Request) : ResponseWriter :=
  Fprintln w "Hello! Go CI/CD App Running 🚀".toList

/-- The handlers that `main` of `src/main.go` registers. -/
inductive Route where
  | root
  | health
deriving DecidableEq, Repr

/-- What each registered handler of `src/main.go` does when called in the process. Neither
function reads or assigns anything but its writer: no package-level variable, no
registration, no output other than to `w`; so the process state comes back as it was. -/
def Route.run : Route → HandlerFunc Route
  | Route.root => fun p w r => (p, rootHandler w r)
  | Route.health => fun p w r => (p, healthHandler w r)

/-- The registrations of `main` in `src/main.go`, in program order, on the empty
`DefaultServeMux`: `/` for the greeting closure, then `/health` for `healthHandler`. -/
def registrations : Option (ServeMux Route) :=
  (ServeMux.empty.Handle "/".toList Route.root).bind fun mux =>
    mux.Handle "/health".toList Route.health

/-- The same two registrations in the opposite order. -/
def registrationsSwapped : Option (ServeMux Route) :=
  (ServeMux.empty.Handle "/health".toList Route.health).bind fun mux =>
    mux.Handle "/".toList Route.root

/-- The route table of `src/main.go` once `main` reaches `ListenAndServe`. -/
def mux : ServeMux Route :=
  { m := [("/health".toList, { h := Route.health, pattern := "/health".toList }),
          ("/".toList, { h := Route.root, pattern := "/".toList })],
    es := [{ h := Route.root, pattern := "/".toList }],
    hosts := false }

/-- The route table that the swapped registrations build. -/
def muxSwapped : ServeMux Route :=
  { m := [("/".toList, { h := Route.root, pattern := "/".toList }),
          ("/health".toList, { h := Route.health, pattern := "/health".toList })],
    es := [{ h := Route.root, pattern := "/".toList }],
    hosts := false }

/-- `TestHealthHandler` of `src/main_test.go`: a GET `/health` request is handed to
`healthHandler` with a new recorder; true when the status check raises no error. -/
def TestHealthHandler : Bool :=
  let req := NewRequest "GET".toList "/health".toList
  let w := ResponseWriter.fresh
  let w := healthHandler w req
  w.finish.status == 200

/-- `main` of `src/main.go` up to the call of `http.ListenAndServe`: the two registrations
on `DefaultServeMux`, then the line `Listening on :8080` on standard output. `none` when a
registration panics. -/
def main : Option (Process Route) :=
  registrations.map fun m => Println { mux := m, stdout := [] } "Listening on :8080".toList

/-- The process of `src/main.go` when it starts to serve. -/
def process : Process Route :=
  { mux := mux, stdout := "Listening on :8080\n".toList }

end Main

/-! ## The handler of `src/app/main.go` -/

namespace App

open GoHealth

/-- `healthHandler` of `src/app/main.go`. -/
def healthHandler (w : ResponseWriter) (_r : Request) : ResponseWriter :=
  let w := w.setHeader "Content-Type".toList "application/json".toList
  Encode w { Status := "OK".toList }

/-- The handler that `main` of `src/app/main.go` registers. -/
inductive Route where
  | health
deriving DecidableEq, Repr

/-- What the registered handler of `src/app/main.go` does when called in the process; it
touches nothing but its writer. -/
def Route.run : Route → HandlerFunc Route
  | Route.health => fun p w r => (p, healthHandler w r)

/-- The registration of `main` in `src/app/main.go` on the empty `DefaultServeMux`:
`./health` for `healthHandler`. -/
def registrations : Option (ServeMux Route) :=
  ServeMux.empty.Handle "./health".toList Route.health

/-- The route table of `src/app/main.go` once `main` reaches `ListenAndServe`. -/
def mux : ServeMux Route :=
  { m := [("./health".toList, { h := Route.health, pattern := "./health".toList })],
    es := [],
    hosts := true }

/-- `main` of `src/app/main.go` up to the call of `http.ListenAndServe`: the one
registration on `DefaultServeMux`; nothing is printed. `none` when the registration
panics. -/
def main : Option (Process Route) :=
  registrations.map fun m => { mux := m, stdout := [] }

/-- The process of `src/app/main.go` when it starts to serve. -/
def process : Process Route :=
  { mux := mux, stdout := [] }

end App

namespace GoHealth

/-- A route table with the two registrations of `src/main.go`, in whichever order they
were made. -/
def IsMainTable (M : ServeMux Main.Route) : Prop :=
  M.hosts = false ∧ M.es = [{ h := Main.Route.root, pattern := "/".toList }] ∧
  ∀ k, M.m.lookup k =
    if k = "/health".toList then some { h := Main.Route.health, pattern := "/health".toList }
    else if k = "/".toList then some { h := Main.Route.root, pattern := "/".toList }
    else none

end GoHealth

/-! ## Lemmas: cleaned paths are rooted; lookups in the route tables -/

namespace GoHealth

theorem le_backtrack (buf : GoString) (dotdot : Nat) :
    ∀ w, dotdot ≤ w → dotdot ≤ backtrack buf dotdot w := by
  intro w
  induction w with
  | zero => intro h; simpa [backtrack] using h
  | succ n ih =>
    intro h
    unfold backtrack
    split
    · rename_i hc
      exact ih (by omega)
    · exact h

theorem dotdotStep_rooted (o : GoString) :
    ∃ o1, dotdotStep true ('/' :: o) 1 = ('/' :: o1, 1) := by
  unfold dotdotStep
  by_cases h : ('/' :: o).length > 1
  · rw [if_pos h]
    have hb := le_backtrack ('/' :: o) 1 (('/' :: o).length - 1) (by omega)
    obtain ⟨k, hk⟩ : ∃ k, backtrack ('/' :: o) 1 (('/' :: o).length - 1) = k + 1 :=
      ⟨_, (Nat.sub_add_cancel hb).symm⟩
    rw [hk]
    exact ⟨o.take k, by simp⟩
  · rw [if_neg h]
    exact ⟨o, by simp⟩

theorem startElem_rooted (o : GoString) (c : Char) :
    ∃ o1, startElem true ('/' :: o) c = '/' :: o1 := by
  unfold startElem
  split
  · exact ⟨o ++ ['/'] ++ [c], by simp⟩
  · exact ⟨o ++ [c], by simp⟩

theorem cleanLoop_rooted (n : Nat) :
    ∀ (rest : GoString), rest.length ≤ n → ∀ (b : Bool) (o : GoString),
      ∃ o1, cleanLoop true b rest ('/' :: o) 1 = '/' :: o1 := by
  induction n with
  | zero =>
    intro rest h b o
    have : rest = [] := List.length_eq_zero.mp (Nat.le_zero.mp h)
    subst this
    exact ⟨o, by cases b <;> simp [cleanLoop]⟩
  | succ n ih =>
    intro rest h b o
    match rest, b with
    | [], b => exact ⟨o, by cases b <;> simp [cleanLoop]⟩
    | c :: cs, true =>
      have hcs : cs.length ≤ n := by simpa using h
      unfold cleanLoop
      split
      · exact ih cs hcs false o
      · exact ih cs hcs true (o ++ [c])
    | c :: cs, false =>
      have hcs : cs.length ≤ n := by simpa using h
      unfold cleanLoop
      split
      · exact ih cs hcs false o
      · split
        · exact ih cs hcs false o
        · split
          · obtain ⟨o1, h1⟩ := startElem_rooted o c
            rw [h1]
            exact ih [] (by simp) true o1
          · rename_i d ds _
            have hds : ds.length ≤ n := by simp at hcs; omega
            split
            · obtain ⟨o1, h1⟩ := dotdotStep_rooted o
              rw [h1]
              exact ih ds hds false o1
            · obtain ⟨o1, h1⟩ := startElem_rooted o c
              rw [h1]
              exact ih (d :: ds) hcs true o1

theorem Clean_rooted (t : GoString) : ∃ u, Clean ('/' :: t) = '/' :: u := by
  obtain ⟨o1, h1⟩ := cleanLoop_rooted t.length t (Nat.le_refl _) false []
  refine ⟨o1, ?_⟩
  simp [Clean, h1]

theorem cleanPath_rooted (p : GoString) : ∃ u, cleanPath p = '/' :: u := by
  unfold cleanPath
  split
  · exact ⟨[], rfl⟩
  · have hp : ∃ t, (if p.head? ≠ some '/' then '/' :: p else p) = '/' :: t := by
      split
      · exact ⟨p, rfl⟩
      · rename_i h
        cases p with
        | nil => simp at h
        | cons a t =>
          simp at h
          exact ⟨t, by rw [h]⟩
    obtain ⟨t, ht⟩ := hp
    simp only [ht]
    obtain ⟨u, hu⟩ := Clean_rooted t
    rw [hu]
    split
    · split
      · exact ⟨t, rfl⟩
      · exact ⟨u ++ ['/'], by simp⟩
    · exact ⟨u, rfl⟩


theorem append_slash_ne_health (x : GoString) : x ++ ['/'] ≠ "/health".toList := by
  intro h
  have := congrArg List.getLast? h
  simp at this

theorem lookup_two {H : Type} (k a b : GoString) (x y : muxEntry H) :
    List.lookup k [(a, x), (b, y)] = if k = a then some x else if k = b then some y else none := by
  by_cases h1 : k = a
  · simp [List.lookup, h1]
  · have e1 : (k == a) = false := by simpa using h1
    by_cases h2 : k = b
    · have e2 : (k == b) = true := by simpa using h2
      subst h2
      simp [List.lookup, h1, e1]
    · have e2 : (k == b) = false := by simpa using h2
      simp [List.lookup, h1, h2, e1, e2]

theorem isMainTable_mux : IsMainTable Main.mux := by
  refine ⟨rfl, rfl, fun k => ?_⟩
  simp only [Main.mux, lookup_two]

theorem isMainTable_muxSwapped : IsMainTable Main.muxSwapped := by
  refine ⟨rfl, rfl, fun k => ?_⟩
  simp only [Main.muxSwapped, lookup_two]
  by_cases h1 : k = "/health".toList
  · subst h1; decide
  · by_cases h2 : k = "/".toList
    · subst h2; decide
    · rw [if_neg h2, if_neg h1, if_neg h1, if_neg h2]

theorem shouldRedirect_main {M : ServeMux Main.Route} (hM : IsMainTable M)
    (host t : GoString) : M.shouldRedirectRLocked host ('/' :: t) = false := by
  obtain ⟨_, _, hl⟩ := hM
  have e1 : M.m.lookup (('/' :: t) ++ ['/']) = none := by
    rw [hl, if_neg (append_slash_ne_health _), if_neg]
    intro h
    have := congrArg List.length h
    simp at this
  have e2 : M.m.lookup ((host ++ '/' :: t) ++ ['/']) = none := by
    rw [hl, if_neg (append_slash_ne_health _), if_neg]
    intro h
    have := congrArg List.length h
    simp at this
    omega
  unfold ServeMux.shouldRedirectRLocked
  simp only [List.any_cons, List.any_nil, Bool.or_false]
  rw [e1, e2]
  split
  · rfl
  · split
    · rfl
    · rfl

theorem handler_main {M : ServeMux Main.Route} (hM : IsMainTable M) (host t : GoString) :
    M.handler host ('/' :: t) =
      if '/' :: t = "/health".toList then
        (Handler.registered Main.Route.health, "/health".toList)
      else (Handler.registered Main.Route.root, "/".toList) := by
  obtain ⟨hh, he, hl⟩ := hM
  unfold ServeMux.handler ServeMux.match'
  simp only [hh, he, hl]
  by_cases h1 : '/' :: t = "/health".toList
  · simp [h1]
  · by_cases h2 : '/' :: t = "/".toList
    · simp [h2]
    · rw [if_neg h1, if_neg h1, if_neg h2]
      simp [List.find?, List.isPrefixOf]


theorem Handler_main_canonical {M : ServeMux Main.Route} (hM : IsMainTable M) (r : Request)
    (hc : cleanPath r.URL.Path = r.URL.Path) :
    M.Handler r =
      if r.URL.Path = "/health".toList then
        (Handler.registered Main.Route.health, "/health".toList)
      else (Handler.registered Main.Route.root, "/".toList) := by
  obtain ⟨u, hu⟩ := cleanPath_rooted r.URL.Path
  rw [hc] at hu
  unfold ServeMux.Handler
  split
  · rw [hu, shouldRedirect_main hM, if_neg (by simp), handler_main hM]
  · simp only [hc, ne_eq, not_true_eq_false, if_false]
    rw [hu, shouldRedirect_main hM, if_neg (by simp), handler_main hM]

theorem requestURI_ne_star (r : Request) (hw : r.fromWire) (u : GoString)
    (hu : r.URL.Path = '/' :: u) : r.RequestURI ≠ "*".toList := by
  intro h
  have := hw h
  rw [hu] at this
  simp at this

theorem finish_onWire_of_written (w : ResponseWriter) (r : Request)
    (hw : w.wroteHeader = true) : (w.finish).onWire r = w.onWire r := by
  unfold ResponseWriter.finish ResponseWriter.WriteHeader
  rw [if_pos hw]

theorem respond_main_canonical (p : Process Main.Route) (hM : IsMainTable p.mux)
    (r : Request) (hw : r.fromWire) (hc : cleanPath r.URL.Path = r.URL.Path) :
    respond Main.Route.run p r =
      if r.URL.Path = "/health".toList then
        (Main.healthHandler ResponseWriter.fresh r).onWire r
      else (Main.rootHandler ResponseWriter.fresh r).onWire r := by
  obtain ⟨u, hu⟩ := cleanPath_rooted r.URL.Path
  rw [hc] at hu
  have hs := requestURI_ne_star r hw u hu
  unfold respond exchange serverHandler ServeMux.ServeHTTP
  simp only [if_neg (fun h : r.RequestURI = "*".toList ∧ r.Method = "OPTIONS".toList => hs h.1),
    if_neg hs, Handler_main_canonical hM r hc]
  split
  · exact finish_onWire_of_written _ r rfl
  · exact finish_onWire_of_written _ r rfl

theorem onWire_status (w : ResponseWriter) (r : Request) : (w.onWire r).status = w.status := by
  unfold ResponseWriter.onWire
  split <;> rfl

theorem onWire_body_head (w : ResponseWriter) (r : Request) (h : r.Method = "HEAD".toList) :
    (w.onWire r).body = [] := by
  unfold ResponseWriter.onWire
  rw [if_pos (Or.inl h)]

theorem onWire_ok (w : ResponseWriter) (r : Request) (h : r.Method ≠ "HEAD".toList)
    (hs : w.status = 200) : w.onWire r = w := by
  unfold ResponseWriter.onWire
  rw [if_neg]
  rw [hs]
  rintro (h1 | h1)
  · exact h h1
  · exact absurd h1 (by decide)

theorem run_main_state (h : Main.Route) (p : Process Main.Route) (w : ResponseWriter)
    (r : Request) : (Main.Route.run h p w r).1 = p := by
  cases h <;> rfl

theorem exchange_main_state (p : Process Main.Route) (r : Request) :
    (exchange Main.Route.run p r).1 = p := by
  unfold exchange serverHandler ServeMux.ServeHTTP
  split
  · rfl
  · split
    · rfl
    · unfold Handler.ServeHTTP
      split
      · exact run_main_state _ _ _ _
      · rfl
      · rfl

theorem serveAll_main (p : Process Main.Route) (rs : List (GoString × Request)) :
    Process.serveAll Main.Route.run p rs
      = (p, rs.map fun tr => (Process.serve Main.Route.run p tr.1 tr.2).2) := by
  induction rs with
  | nil => rfl
  | cons tr rest ih =>
    have h1 : (Process.serve Main.Route.run p tr.1 tr.2).1 = p := exchange_main_state p tr.2
    simp only [Process.serveAll, h1, ih, List.map_cons]

theorem Del_Set (h : Header) (k v : GoString) : Header.Del (Header.Set h k v) k = Header.Del h k := by
  simp [Header.Set, Header.Del, List.filter_filter]

theorem send_apart_from_date (t1 t2 : GoString) (w : ResponseWriter) :
    (Response.send t1 w).status = (Response.send t2 w).status ∧
    (Response.send t1 w).body = (Response.send t2 w).body ∧
    Header.Del (Response.send t1 w).header "Date".toList
      = Header.Del (Response.send t2 w).header "Date".toList := by
  refine ⟨rfl, rfl, ?_⟩
  unfold Response.send
  by_cases h : Header.has w.sentHeader "Date".toList = true
  · simp only [if_pos h]
  · simp only [if_neg h, Del_Set]

end GoHealth

/-! ## The library models on known inputs; decoding inverts encoding -/

namespace GoHealth

/-- The model of `path.Clean` on inputs from the table of the Go library's own test. -/
theorem Clean_test_table :
    Clean "".toList = ".".toList ∧
    Clean "abc".toList = "abc".toList ∧
    Clean "..".toList = "..".toList ∧
    Clean "../../abc".toList = "../../abc".toList ∧
    Clean "/".toList = "/".toList ∧
    Clean "abc/def/".toList = "abc/def".toList ∧
    Clean "./".toList = ".".toList ∧
    Clean "/abc/".toList = "/abc".toList ∧
    Clean "abc//def//ghi".toList = "abc/def/ghi".toList ∧
    Clean "///abc".toList = "/abc".toList ∧
    Clean "//abc//".toList = "/abc".toList ∧
    Clean "abc/./def".toList = "abc/def".toList ∧
    Clean "/./abc/def".toList = "/abc/def".toList ∧
    Clean "abc/def/ghi/../jkl".toList = "abc/def/jkl".toList ∧
    Clean "abc/def/../ghi/../jkl".toList = "abc/jkl".toList ∧
    Clean "abc/def/../..".toList = ".".toList ∧
    Clean "/abc/def/../..".toList = "/".toList ∧
    Clean "abc/def/../../..".toList = "..".toList ∧
    Clean "/abc/def/../../..".toList = "/".toList ∧
    Clean "abc/def/../../../ghi/jkl/../../../mno".toList = "../../mno".toList ∧
    Clean "abc/./../def".toList = "def".toList ∧
    Clean "abc//./../def".toList = "def".toList ∧
    Clean "abc/../../././../def".toList = "../../def".toList := by
  decide

/-- The model of `cleanPath` and of `stripHostPort` on sample inputs. -/
theorem cleanPath_stripHostPort_samples :
    cleanPath "".toList = "/".toList ∧
    cleanPath "health".toList = "/health".toList ∧
    cleanPath "/health/".toList = "/health/".toList ∧
    cleanPath "//health".toList = "/health".toList ∧
    cleanPath "/a/b/../".toList = "/a/".toList ∧
    cleanPath "/../".toList = "/".toList ∧
    stripHostPort "example.com".toList = "example.com".toList ∧
    stripHostPort "example.com:8080".toList = "example.com".toList ∧
    stripHostPort "[::1]:8080".toList = "::1".toList ∧
    stripHostPort "::1".toList = "::1".toList ∧
    stripHostPort ".:8080".toList = ".".toList := by
  decide

/-- A path that is not in canonical form is not served by a registered handler of
`src/main.go`: GET `//health` is redirected (301) to `/health`. -/
theorem noncanonical_path_redirected :
    Main.mux.Handler (NewRequest "GET".toList "//health".toList)
      = (Handler.RedirectHandler "/health".toList 301, "/health".toList) ∧
    (respond Main.Route.run Main.process (NewRequest "GET".toList "//health".toList)).status
      = 301 := by
  decide

/-- On the entry point of `src/app/main.go` the pattern `./health` does match a request for
`/health` whose host is the literal `.`, with or without a port. -/
theorem app_dot_host_reaches_health :
    App.mux.Handler { NewRequest "GET".toList "/health".toList with Host := ".".toList }
      = (Handler.registered App.Route.health, "./health".toList) ∧
    App.mux.Handler { NewRequest "GET".toList "/health".toList with Host := ".:8080".toList }
      = (Handler.registered App.Route.health, "./health".toList) := by
  decide

theorem hexVal_hexDigit (k : Nat) (hk : k < 16) : hexVal (hexDigit k) = some k := by
  interval_cases k <;> decide

theorem scanString_plain (c : Char) (t : GoString) (h1 : c ≠ Char.ofNat 34) (h2 : c ≠ '\\')
    (h3 : ¬ c.toNat < 32) :
    scanString (c :: t) = (scanString t).map fun p => (c :: p.1, p.2) := by
  rw [scanString.eq_def]
  simp only [if_neg h1, if_neg h2, if_neg h3]

theorem scanString_simple_escape (c e : Char) (t : GoString) (he : e ≠ 'u')
    (hu : unescapeChar e = some c) :
    scanString ('\\' :: e :: t) = (scanString t).map fun p => (c :: p.1, p.2) := by
  rw [scanString.eq_def]
  simp only [if_neg (show ('\\' : Char) ≠ Char.ofNat 34 by decide), if_true, if_neg he, hu]

theorem scanString_u_escape (a b c d : Nat) (ha : a < 16) (hb : b < 16) (hc : c < 16)
    (hd : d < 16) (t : GoString)
    (hs : ¬ (0xD800 ≤ ((a * 16 + b) * 16 + c) * 16 + d ∧ ((a * 16 + b) * 16 + c) * 16 + d ≤ 0xDFFF)) :
    scanString ('\\' :: 'u' :: hexDigit a :: hexDigit b :: hexDigit c :: hexDigit d :: t)
      = (scanString t).map fun p => (Char.ofNat (((a * 16 + b) * 16 + c) * 16 + d) :: p.1, p.2) := by
  rw [scanString.eq_def]
  simp only [if_neg (show ('\\' : Char) ≠ Char.ofNat 34 by decide), if_true,
    hexVal_hexDigit _ ha, hexVal_hexDigit _ hb, hexVal_hexDigit _ hc, hexVal_hexDigit _ hd,
    if_neg hs]


theorem scanString_escape (c : Char) (t rest s : GoString)
    (ih : scanString t = some (s, rest)) :
    scanString (jsonEscapeChar c ++ t) = some (c :: s, rest) := by
  unfold jsonEscapeChar
  split
  · rename_i h; subst h
    exact (scanString_simple_escape '\\' '\\' t (by decide) (by decide)).trans (by rw [ih]; rfl)
  split
  · rename_i h; subst h
    exact (scanString_simple_escape (Char.ofNat 34) (Char.ofNat 34) t (by decide) (by decide)).trans
      (by rw [ih]; rfl)
  split
  · rename_i h; subst h
    exact (scanString_simple_escape (Char.ofNat 8) 'b' t (by decide) (by decide)).trans (by rw [ih]; rfl)
  split
  · rename_i h; subst h
    exact (scanString_simple_escape (Char.ofNat 12) 'f' t (by decide) (by decide)).trans (by rw [ih]; rfl)
  split
  · rename_i h; subst h
    exact (scanString_simple_escape '\n' 'n' t (by decide) (by decide)).trans (by rw [ih]; rfl)
  split
  · rename_i h; subst h
    exact (scanString_simple_escape '\r' 'r' t (by decide) (by decide)).trans (by rw [ih]; rfl)
  split
  · rename_i h; subst h
    exact (scanString_simple_escape '\t' 't' t (by decide) (by decide)).trans (by rw [ih]; rfl)
  split
  · rename_i h
    have hlt : c.toNat < 256 := by
      rcases h with h | h | h | h
      · omega
      · subst h; decide
      · subst h; decide
      · subst h; decide
    have e := scanString_u_escape 0 0 (c.toNat / 16) (c.toNat % 16) (by omega) (by omega)
      (by omega) (by omega) t (by omega)
    have en : ((0 * 16 + 0) * 16 + c.toNat / 16) * 16 + c.toNat % 16 = c.toNat := by omega
    rw [en, Char.ofNat_toNat, ih] at e
    exact e
  split
  · rename_i h
    have e := scanString_u_escape 2 0 2 (c.toNat % 16) (by omega) (by omega)
      (by omega) (by omega) t (by omega)
    have en : ((2 * 16 + 0) * 16 + 2) * 16 + c.toNat % 16 = c.toNat := by omega
    rw [en, Char.ofNat_toNat, ih] at e
    exact e
  · rename_i h1 h2 _ _ _ _ _ h8 _
    rw [List.singleton_append, scanString_plain c t h2 h1 (fun h => h8 (Or.inl h)), ih]
    rfl

theorem scanString_jsonString (s rest : GoString) :
    scanString (s.flatMap jsonEscapeChar ++ Char.ofNat 34 :: rest) = some (s, rest) := by
  induction s with
  | nil => rw [scanString.eq_def]; simp
  | cons c s ih =>
    rw [List.flatMap_cons, List.append_assoc]
    exact scanString_escape c _ rest s ih


theorem scanMembers_status (fuel : Nat) (val rest : GoString) (acc : HealthResponse) :
    scanMembers (fuel + 1)
        (jsonString "status".toList ++ ':' :: (jsonString val ++ '}' :: rest)) acc
      = some ({ Status := val }, rest) := by
  have hk : ∀ R, scanString ('s' :: 't' :: 'a' :: 't' :: 'u' :: 's' :: Char.ofNat 34 :: R)
      = some (['s', 't', 'a', 't', 'u', 's'], R) :=
    fun R => scanString_jsonString "status".toList R
  have hv : ∀ R, scanString (val.flatMap jsonEscapeChar ++ Char.ofNat 34 :: R) = some (val, R) :=
    fun R => scanString_jsonString val R
  have e1 : jsonString "status".toList ++ ':' :: (jsonString val ++ '}' :: rest)
      = Char.ofNat 34 :: ("status".toList ++ Char.ofNat 34 ::
          (':' :: Char.ofNat 34 :: (val.flatMap jsonEscapeChar ++ Char.ofNat 34 :: ('}' :: rest)))) := by
    have hs : jsonString "status".toList = Char.ofNat 34 :: ("status".toList ++ [Char.ofNat 34]) := by
      decide
    rw [hs]
    simp only [jsonString, List.append_assoc, List.cons_append, List.nil_append,
      List.singleton_append]
  rw [e1, scanMembers]
  simp [skipSpace, hk, hv]
  intro h
  exact absurd (by decide) (h (by decide) (by decide) (by decide) (by decide) (by decide))


theorem Unmarshal_Marshal (v : HealthResponse) : Unmarshal (Marshal v) = some v := by
  have e : Marshal v
      = '{' :: (jsonString "status".toList ++ ':' :: (jsonString v.Status ++ '}' :: [])) := by
    simp [Marshal]
  obtain ⟨n, hn⟩ : ∃ n, (Marshal v).length = n + 1 := ⟨_, by rw [e]; rfl⟩
  unfold Unmarshal
  rw [hn, e]
  have hq : jsonString "status".toList = Char.ofNat 34 :: ("status".toList ++ [Char.ofNat 34]) := by
    decide
  have h2 : scanMembers (n + 1)
      (Char.ofNat 34 :: 's' :: 't' :: 'a' :: 't' :: 'u' :: 's' :: Char.ofNat 34 :: ':' ::
        (jsonString v.Status ++ ['}'])) { Status := [] } = some ({ Status := v.Status }, []) :=
    scanMembers_status n v.Status [] { Status := [] }
  rw [hq]
  simp [skipSpace, h2]

end GoHealth

/-! ## The claims -/

namespace GoHealth

theorem WriteHeader_body (w : ResponseWriter) (code : Nat) : (w.WriteHeader code).body = w.body := by
  unfold ResponseWriter.WriteHeader
  split <;> rfl

theorem WriteHeader_handlerHeader (w : ResponseWriter) (code : Nat) :
    (w.WriteHeader code).handlerHeader = w.handlerHeader := by
  unfold ResponseWriter.WriteHeader
  split <;> rfl

theorem Handler_order_irrelevant {M N : ServeMux Main.Route} (hM : IsMainTable M)
    (hN : IsMainTable N) (r : Request) : M.Handler r = N.Handler r := by
  obtain ⟨h1, h2, h3⟩ := hM
  obtain ⟨k1, k2, k3⟩ := hN
  simp only [ServeMux.Handler, ServeMux.handler, ServeMux.match',
    ServeMux.shouldRedirectRLocked, h1, h2, h3, k1, k2, k3]

/-- C1: for every request, `healthHandler` called on a fresh response writer gives status
200, the `Content-Type` header `application/json`, and a body that decodes as JSON to the
record with status `OK`; the test `TestHealthHandler` (GET `/health`) passes. -/
theorem healthHandler_fresh_response (r : Request) :
    (Main.healthHandler ResponseWriter.fresh r).status = 200 ∧
    Header.Get (Main.healthHandler ResponseWriter.fresh r).sentHeader "Content-Type".toList
      = "application/json".toList ∧
    Unmarshal (Main.healthHandler ResponseWriter.fresh r).body
      = some { Status := "OK".toList } ∧
    Main.TestHealthHandler = true := by
  refine ⟨?_, ?_, ?_, ?_⟩
  · rfl
  · simp only [Main.healthHandler]; decide
  · simp only [Main.healthHandler]; decide
  · decide

/-- C2: for every request, the bytes `healthHandler` writes are exactly
`{"status":"OK"}` followed by one newline, sixteen bytes in all: appended to whatever the
writer already held, and the whole body on a fresh writer. -/
theorem healthHandler_body_exact (w : ResponseWriter) (r : Request) :
    (Main.healthHandler w r).body = w.body ++ "\x7b\"status\":\"OK\"\x7d\n".toList ∧
    (Main.healthHandler ResponseWriter.fresh r).body = "\x7b\"status\":\"OK\"\x7d\n".toList ∧
    (Main.healthHandler ResponseWriter.fresh r).body.length = 16 := by
  refine ⟨?_, ?_, ?_⟩
  · have e : Marshal { Status := "OK".toList } ++ ['\n'] = "\x7b\"status\":\"OK\"\x7d\n".toList := by
      decide
    simp only [Main.healthHandler, Encode, ResponseWriter.Write, WriteHeader_body, e]
    rfl
  · simp only [Main.healthHandler]; decide
  · simp only [Main.healthHandler]; decide

theorem app_lookup (k : GoString) :
    App.mux.m.lookup k =
      if k = "./health".toList then some { h := App.Route.health, pattern := "./health".toList }
      else none := by
  by_cases h : k = "./health".toList
  · subst h; decide
  · have e : (k == "./health".toList) = false := by simpa using h
    rw [if_neg h]
    simp only [App.mux, List.lookup, e]

theorem host_health_ne (host : GoString) (hh : host ≠ ".".toList) :
    host ++ "/health".toList ≠ "./health".toList := by
  intro h
  have e : "./health".toList = ".".toList ++ "/health".toList := by decide
  rw [e] at h
  exact hh (List.append_cancel_right h)

/-- C7: the response of each handler does not depend on the request: for any writer state
and any two requests, `healthHandler` leaves the same writer state (status, headers, body)
for both, and so does the greeting handler; POST `/health` is answered like GET
`/health`. -/
theorem handlers_ignore_request (w : ResponseWriter) (r1 r2 : Request) :
    Main.healthHandler w r1 = Main.healthHandler w r2 ∧
    Main.rootHandler w r1 = Main.rootHandler w r2 ∧
    Main.main = some Main.process ∧
    respond Main.Route.run Main.process (NewRequest "POST".toList "/health".toList)
      = respond Main.Route.run Main.process (NewRequest "GET".toList "/health".toList) := by
  refine ⟨rfl, rfl, by decide, by decide⟩

/-- C8, as stated, fails: the same GET `/health` answered at two readings of the clock gets
two responses that are not identical, because each carries its own `Date` header. -/
theorem repeated_request_differs_in_date :
    Main.main = some Main.process ∧
    (Process.serveAll Main.Route.run Main.process
        [("Mon, 02 Nov 2026 10:00:00 GMT".toList, NewRequest "GET".toList "/health".toList),
         ("Mon, 02 Nov 2026 10:00:01 GMT".toList, NewRequest "GET".toList "/health".toList)]).2
      = [(Process.serve Main.Route.run Main.process "Mon, 02 Nov 2026 10:00:00 GMT".toList
            (NewRequest "GET".toList "/health".toList)).2,
         (Process.serve Main.Route.run Main.process "Mon, 02 Nov 2026 10:00:01 GMT".toList
            (NewRequest "GET".toList "/health".toList)).2] ∧
    (Process.serve Main.Route.run Main.process "Mon, 02 Nov 2026 10:00:00 GMT".toList
        (NewRequest "GET".toList "/health".toList)).2
      ≠ (Process.serve Main.Route.run Main.process "Mon, 02 Nov 2026 10:00:01 GMT".toList
        (NewRequest "GET".toList "/health".toList)).2 ∧
    Header.Get (Process.serve Main.Route.run Main.process "Mon, 02 Nov 2026 10:00:00 GMT".toList
        (NewRequest "GET".toList "/health".toList)).2.header "Date".toList
      = "Mon, 02 Nov 2026 10:00:00 GMT".toList ∧
    Header.Get (Process.serve Main.Route.run Main.process "Mon, 02 Nov 2026 10:00:01 GMT".toList
        (NewRequest "GET".toList "/health".toList)).2.header "Date".toList
      = "Mon, 02 Nov 2026 10:00:01 GMT".toList := by
  decide

/-- C8, amended: in the process that `main` of `src/main.go` sets up, serving a request
leaves the process state (route table and output) as it was, since the registered handlers
change nothing but their writer; the response to a request does not depend on the requests
served before; and the responses to the same request at any two readings of the clock have
the same status, the same body and the same headers apart from `Date`. So the same request
issued `N` times, at the clock readings `ts`, gets `N` responses that differ in nothing
but `Date`. -/
theorem serve_is_stateless (r : Request) (t1 t2 : GoString) (ts : List GoString)
    (rs : List (GoString × Request)) :
    Main.main = some Main.process ∧
    (Process.serve Main.Route.run Main.process t1 r).1 = Main.process ∧
    (Process.serveAll Main.Route.run Main.process rs).1 = Main.process ∧
    (Process.serveAll Main.Route.run Main.process rs).2
      = rs.map (fun tr => (Process.serve Main.Route.run Main.process tr.1 tr.2).2) ∧
    (Process.serveAll Main.Route.run Main.process (ts.map fun t => (t, r))).1 = Main.process ∧
    (Process.serveAll Main.Route.run Main.process (ts.map fun t => (t, r))).2
      = ts.map (fun t => (Process.serve Main.Route.run Main.process t r).2) ∧
    (Process.serve Main.Route.run Main.process t1 r).2.status
      = (Process.serve Main.Route.run Main.process t2 r).2.status ∧
    (Process.serve Main.Route.run Main.process t1 r).2.body
      = (Process.serve Main.Route.run Main.process t2 r).2.body ∧
    Header.Del (Process.serve Main.Route.run Main.process t1 r).2.header "Date".toList
      = Header.Del (Process.serve Main.Route.run Main.process t2 r).2.header "Date".toList := by
  have hd := send_apart_from_date t1 t2 (exchange Main.Route.run Main.process r).2
  refine ⟨by decide, exchange_main_state _ _, ?_, ?_, ?_, ?_, hd.1, hd.2.1, hd.2.2⟩
  · rw [serveAll_main]
  · rw [serveAll_main]
  · rw [serveAll_main]
  · rw [serveAll_main, List.map_map]
    rfl

end GoHealth
